import Mathlib

/-!
# Verification of the `node-arweave-wallet` request/response relay core

Shallow embedding of the SSE-based `NodeArweaveWallet` implementation
(`src/types.ts`, the server-sent-events variant: constants, helper
functions, the pending-request table, the push channel handlers, the
HTTP endpoints and the lifecycle methods), together with the transport
encoding helpers (`src/helpers.ts` / `bufferToBase64`, `base64ToBuffer`).

Bytes are modelled as `Nat` values below 256; byte buffers as
`List Nat`.  The pending-request table (a JS `Map` in insertion order)
is modelled as an association list; continuations stored in the table
are modelled by emitted settlement events instead of closures.
-/

namespace NodeArweaveWallet

/-! ## Transport encoding (`src/helpers.ts`)

`bufferToBase64` delegates to Node's `Buffer.from(u8).toString('base64')`
and `base64ToBuffer` to `Buffer.from(s, 'base64')`.  Node's `Buffer`
implements RFC 4648 base64 with `=` padding; the two definitions below
embed that encoding and its decoding on byte lists.  (For decoding we
embed Node's behaviour on the padded well-formed strings that the
encoder emits: a group ending in `==` holds one byte, a group ending in
`=` holds two bytes, a full group holds three.) -/

/-- The base64 alphabet, as a function from a sextet value to its
character: `A`–`Z` for 0–25, `a`–`z` for 26–51, `0`–`9` for 52–61,
then `+` and `/`. -/
def b64Char (n : Nat) : Char :=
  if n < 26 then Char.ofNat (65 + n)
  else if n < 52 then Char.ofNat (71 + n)
  else if n < 62 then Char.ofNat (n - 4)
  else if n = 62 then '+'
  else '/'

/-- Inverse of the base64 alphabet on its image. -/
def b64Index (c : Char) : Nat :=
  if c = '+' then 62
  else if c = '/' then 63
  else if c.toNat < 58 then c.toNat + 4
  else if c.toNat < 91 then c.toNat - 65
  else c.toNat - 71

/-- Byte triples become four sextet characters; a trailing single byte
becomes two characters plus `==`; a trailing pair becomes three
characters plus `=` (RFC 4648, as implemented by Node's `Buffer`). -/
def encodeChars : List Nat → List Char
  | [] => []
  | [a] => [b64Char (a / 4), b64Char (a % 4 * 16), '=', '=']
  | [a, b] => [b64Char (a / 4), b64Char (a % 4 * 16 + b / 16), b64Char (b % 16 * 4), '=']
  | a :: b :: c :: rest =>
      b64Char (a / 4) :: b64Char (a % 4 * 16 + b / 16) ::
      b64Char (b % 16 * 4 + c / 64) :: b64Char (c % 64) :: encodeChars rest

/-- Decoding of padded base64 character groups: each four-character
group yields three bytes, except that `=` padding marks a final group
of one or two bytes. -/
def decodeChars : List Char → List Nat
  | c1 :: c2 :: c3 :: c4 :: rest =>
      if c3 = '=' then [b64Index c1 * 4 + b64Index c2 / 16]
      else if c4 = '=' then
        [b64Index c1 * 4 + b64Index c2 / 16,
         b64Index c2 % 16 * 16 + b64Index c3 / 4]
      else
        (b64Index c1 * 4 + b64Index c2 / 16) ::
        (b64Index c2 % 16 * 16 + b64Index c3 / 4) ::
        (b64Index c3 % 4 * 64 + b64Index c4) :: decodeChars rest
  | _ => []

/-- `bufferToBase64` from `src/helpers.ts`: encode a byte buffer to a
base64 string. -/
def bufferToBase64 (buffer : List Nat) : String :=
  String.mk (encodeChars buffer)

/-- `base64ToBuffer` from `src/helpers.ts`: decode a base64 string back
to a byte buffer. -/
def base64ToBuffer (base64 : String) : List Nat :=
  decodeChars base64.data

theorem b64_char_index : ∀ n : Fin 64,
    b64Index (b64Char n.val) = n.val ∧ b64Char n.val ≠ '=' := by
  decide

theorem b64Index_b64Char {n : Nat} (h : n < 64) : b64Index (b64Char n) = n :=
  (b64_char_index ⟨n, h⟩).1

theorem b64Char_ne_pad {n : Nat} (h : n < 64) : b64Char n ≠ '=' :=
  (b64_char_index ⟨n, h⟩).2

theorem decode_encode (b : List Nat) (h : ∀ x ∈ b, x < 256) :
    decodeChars (encodeChars b) = b := by
  induction b using encodeChars.induct with
  | case1 => simp [encodeChars, decodeChars]
  | case2 a =>
      have ha : a < 256 := h a (by simp)
      have h1 : a / 4 < 64 := by omega
      have h2 : a % 4 * 16 < 64 := by omega
      simp only [encodeChars, decodeChars, if_pos rfl,
        b64Index_b64Char h1, b64Index_b64Char h2, if_true,
        List.cons.injEq, and_true]
      omega
  | case3 a b =>
      have ha : a < 256 := h a (by simp)
      have hb : b < 256 := h b (by simp)
      have h1 : a / 4 < 64 := by omega
      have h2 : a % 4 * 16 + b / 16 < 64 := by omega
      have h3 : b % 16 * 4 < 64 := by omega
      simp only [encodeChars, decodeChars, if_neg (b64Char_ne_pad h3), if_pos rfl,
        b64Index_b64Char h1, b64Index_b64Char h2, b64Index_b64Char h3, if_true,
        List.cons.injEq, and_true]
      omega
  | case4 a b c rest ih =>
      have ha : a < 256 := h a (by simp)
      have hb : b < 256 := h b (by simp)
      have hc : c < 256 := h c (by simp)
      have h1 : a / 4 < 64 := by omega
      have h2 : a % 4 * 16 + b / 16 < 64 := by omega
      have h3 : b % 16 * 4 + c / 64 < 64 := by omega
      have h4 : c % 64 < 64 := by omega
      have hrest : ∀ x ∈ rest, x < 256 := by
        intro x hx
        exact h x (by simp [hx])
      simp only [encodeChars, decodeChars, if_neg (b64Char_ne_pad h3),
        if_neg (b64Char_ne_pad h4),
        b64Index_b64Char h1, b64Index_b64Char h2, b64Index_b64Char h3,
        b64Index_b64Char h4, ih hrest, if_true, List.cons.injEq, and_true]
      omega

/-- C4.  For every byte buffer (any length, any contents), decoding the
transport encoding reproduces the original bytes exactly:
`base64ToBuffer (bufferToBase64 b) = b`. -/
theorem base64_roundtrip (b : List Nat) (h : ∀ x ∈ b, x < 256) :
    base64ToBuffer (bufferToBase64 b) = b := by
  unfold base64ToBuffer bufferToBase64
  exact decode_encode b h

/-- Witness for C4 at a concrete buffer exercising the 0 byte, the 255
byte and every padding shape. -/
theorem base64_roundtrip_witness :
    (∀ x ∈ [0, 255, 7, 128, 63], x < 256) ∧
      base64ToBuffer (bufferToBase64 [0, 255, 7, 128, 63]) = [0, 255, 7, 128, 63] :=
  ⟨by decide, base64_roundtrip [0, 255, 7, 128, 63] (by decide)⟩

/-! ## Constants (`src/types.ts`, lines 229–236) -/

def REQUEST_TIMEOUT : Nat := 120000

def HEARTBEAT_CHECK_INTERVAL : Nat := 10000

def HEARTBEAT_TIMEOUT : Nat := 300000

def DEFAULT_PORT : Nat := 3737

def SHUTDOWN_DELAY : Nat := 500

/-! ## JSON values

`handleResponse` runs `JSON.parse` on the request body; the parsed
value is modelled by `Json` below.  JavaScript `undefined` (an absent
object field) is modelled by `Option`. -/

inductive Json where
  | null : Json
  | bool : Bool → Json
  | num : Int → Json
  | str : String → Json
  | arr : List Json → Json
  | obj : List (String × Json) → Json

/-- First-match field lookup in a parsed JSON object. -/
def lookupField : List (String × Json) → String → Option Json
  | [], _ => none
  | (k, v) :: rest, name => if k = name then some v else lookupField rest name

/-- JavaScript property read `v[name]` for the values `JSON.parse` can
produce, ignoring the prototype chain: an object yields its field (or
`undefined` = `none`); primitives and arrays yield `undefined`. -/
def getField (j : Json) (name : String) : Option Json :=
  match j with
  | .obj fields => lookupField fields name
  | _ => none

/-- JavaScript truthiness of a `JSON.parse` value, used by the
`if (response.error)` test in `handleResponse`. -/
def jsTruthy : Json → Bool
  | .null => false
  | .bool b => b
  | .num n => decide (n ≠ 0)
  | .str s => decide (s ≠ "")
  | .arr _ => true
  | .obj _ => true

/-! ## Pending request table

The table is a JS `Map` keyed by the request id, iterated in insertion
order; it is modelled as an association list.  The stored `resolve` /
`reject` continuations are modelled by the settlement events a
transition emits; the stored `data` field `\x7b type, params \x7d` is the
`Pending` record (the `params` payload is kept opaque as a string). -/

structure Pending where
  kind : String
  params : String
deriving Repr, DecidableEq

/-- `Map.get`. -/
def mapGet : List (String × Pending) → String → Option Pending
  | [], _ => none
  | (k, v) :: rest, id => if k = id then some v else mapGet rest id

/-- `Map.set`: replaces the value in place when the key is present
(keeping its position in iteration order), otherwise appends. -/
def mapSet (m : List (String × Pending)) (id : String) (p : Pending) :
    List (String × Pending) :=
  match m with
  | [] => [(id, p)]
  | (k, v) :: rest => if k = id then (id, p) :: rest else (k, v) :: mapSet rest id p

/-- `Map.delete`.  (Keys are unique in every reachable table, so
removing every binding of the key coincides with `Map.delete`.) -/
def mapDelete : List (String × Pending) → String → List (String × Pending)
  | [], _ => []
  | (k, v) :: rest, id =>
      if k = id then mapDelete rest id else (k, v) :: mapDelete rest id

/-! ## Session state and observable events

One `NodeArweaveWallet` instance (`src/types.ts`, lines 257–268).
`sseClient` holds the handle of the attached push channel; handles are
numbered by `nextChan` so that distinct channel instances are
distinguishable.  Timers are modelled by explicit transitions
(`requestTimeoutFire`, `heartbeatTick`); wall-clock instants are `Nat`
milliseconds. -/

structure WalletState where
  pendingRequests : List (String × Pending)
  sseClient : Option Nat
  nextChan : Nat
  browserConnected : Bool
  lastHeartbeat : Nat
  complete : Bool
  address : Option String
  server : Bool
  heartbeatInterval : Bool

/-- Messages written on a push channel (`data: ...` SSE frames). -/
inductive Msg where
  | connected : Msg
  | request : String → String → String → Msg
  | completed : String → Msg
deriving Repr, DecidableEq

/-- Observable effects of a transition: a channel write, or the
settlement of a pending request's future (`resolveEv` carries the
browser-supplied result, `rejectResp` a browser-reported error value,
`rejectErr` a locally constructed `Error` message). -/
inductive Ev where
  | write : Nat → Msg → Ev
  | resolveEv : String → Json → Ev
  | rejectResp : String → Json → Ev
  | rejectErr : String → String → Ev

/-- The state of a freshly constructed and initialized wallet: empty
table, no channel, session not complete, no cached address. -/
def initWalletState : WalletState :=
  { pendingRequests := []
    sseClient := none
    nextChan := 0
    browserConnected := false
    lastHeartbeat := 0
    complete := false
    address := none
    server := true
    heartbeatInterval := true }

/-! ## Push channel handlers (`src/types.ts`, lines 587–652) -/

/-- `handleSSE` (lines 587–624): marks the browser connected, stores
the new channel handle, writes the `connected` message, and re-sends
the first pending table entry if one exists (its `data` field is always
set by `makeWalletRequest`).  The `res.on('close')` registration is the
separate transition `sseCloseHandler`. -/
def handleSSE (s : WalletState) (now : Nat) : WalletState × List Ev :=
  let c := s.nextChan
  let s' := { s with lastHeartbeat := now, browserConnected := true,
                     sseClient := some c, nextChan := c + 1 }
  let evs := Ev.write c Msg.connected ::
    (match s.pendingRequests with
      | [] => []
      | (id, p) :: _ => [Ev.write c (Msg.request id p.kind p.params)])
  (s', evs)

/-- The `res.on('close')` handler installed by `handleSSE`
(lines 617–623), firing for channel instance `chan`: if that instance
is still the stored client, the handle is cleared and the browser is
marked disconnected.  Nothing else happens: in particular the pending
request table is not touched and no future is settled. -/
def sseCloseHandler (s : WalletState) (chan : Nat) : WalletState × List Ev :=
  if s.sseClient = some chan then
    ({ s with sseClient := none, browserConnected := false }, [])
  else (s, [])

/-- `sendSSERequest` (lines 626–638): writes the request frame when a
client is attached, otherwise does nothing.  (The write-failure catch
path is external I/O and not modelled; writes succeed.) -/
def sendSSERequest (s : WalletState) (id kind params : String) : List Ev :=
  match s.sseClient with
  | some c => [Ev.write c (Msg.request id kind params)]
  | none => []

/-- `sendSSEComplete` (lines 640–652). -/
def sendSSEComplete (s : WalletState) (status : String) : List Ev :=
  match s.sseClient with
  | some c => [Ev.write c (Msg.completed status)]
  | none => []

/-- `markComplete` (lines 481–488): sets the completion flag and
notifies the attached channel, if any. -/
def markComplete (s : WalletState) (status : String) : WalletState × List Ev :=
  ({ s with complete := true }, sendSSEComplete s status)

/-! ## Pending request lifecycle (`src/types.ts`, lines 523–547 and
654–729) -/

/-- `makeWalletRequest` (lines 705–729): stores the pending request
under the id obtained from the external generator (`nanoid()`), then
immediately forwards it when a channel is attached.  The armed timeout
is the separate transition `requestTimeoutFire`. -/
def makeWalletRequest (s : WalletState) (id kind params : String) :
    WalletState × List Ev :=
  let s' := { s with pendingRequests := mapSet s.pendingRequests id ⟨kind, params⟩ }
  (s', sendSSERequest s' id kind params)

/-- The timeout armed by `makeWalletRequest` (lines 708–711) firing for
request `id`: the entry is deleted and its future rejected with
`Timeout waiting for <kind>`.  The timer is cancelled whenever the
entry is settled, so it can only fire while the entry is live; the
guard reflects that. -/
def requestTimeoutFire (s : WalletState) (id : String) : WalletState × List Ev :=
  match mapGet s.pendingRequests id with
  | some p =>
      ({ s with pendingRequests := mapDelete s.pendingRequests id },
       [Ev.rejectErr id ("Timeout waiting for " ++ p.kind)])
  | none => (s, [])

/-- The heartbeat rejection message built in `startHeartbeatChecker`
(lines 529–541). -/
def heartbeatTimeoutMsg : String :=
  "Browser connection timeout after " ++ toString (HEARTBEAT_TIMEOUT / 60000) ++
  " minutes. Please ensure the browser window stays open during signing operations."

/-- One firing of the `startHeartbeatChecker` interval (lines 523–547)
at instant `now`: only when the browser is (still) marked connected,
requests are pending, and the last heartbeat is stale does it mark the
browser disconnected and reject-and-delete every pending entry. -/
def heartbeatTick (s : WalletState) (now : Nat) : WalletState × List Ev :=
  if s.browserConnected && decide (0 < s.pendingRequests.length)
      && decide (HEARTBEAT_TIMEOUT < now - s.lastHeartbeat) then
    ({ s with browserConnected := false, pendingRequests := [] },
     s.pendingRequests.map (fun kv => Ev.rejectErr kv.1 heartbeatTimeoutMsg))
  else (s, [])

/-- The HTTP reply `handleResponse` sends: its status code, and whether
the body is `\x7b"success":true\x7d`. -/
structure HttpReply where
  status : Nat
  success : Bool
deriving Repr, DecidableEq

/-- `response.id` as read by `handleResponse`: a property access on the
parsed `null` throws a `TypeError` (taken to the catch branch); on a
non-object it yields `undefined`; `Map.get` can only match when the
field is a string, since the table keys are strings and `Map` compares
keys strictly. -/
def responseId : Json → Except Unit (Option String)
  | .null => .error ()
  | .obj fields =>
      .ok (match lookupField fields "id" with
        | some (.str s) => some s
        | _ => none)
  | _ => .ok none

/-- `handleResponse` (lines 654–676), applied to the already-parsed
body (a parse failure takes the same catch branch as the `null`
`TypeError` and replies 400): a live entry is settled — rejected when
`response.error` is truthy, else resolved with `response.result`
(`undefined` modelled as `Json.null`) — and deleted; then the reply is
`200 \x7b"success":true\x7d` whether or not the id was live. -/
def handleResponse (s : WalletState) (body : Json) :
    WalletState × HttpReply × List Ev :=
  match responseId body with
  | .error _ => (s, ⟨400, false⟩, [])
  | .ok none => (s, ⟨200, true⟩, [])
  | .ok (some id) =>
      match mapGet s.pendingRequests id with
      | none => (s, ⟨200, true⟩, [])
      | some _ =>
          let ev :=
            match getField body "error" with
            | some e =>
                if jsTruthy e then Ev.rejectResp id e
                else Ev.resolveEv id ((getField body "result").getD Json.null)
            | none => Ev.resolveEv id ((getField body "result").getD Json.null)
          ({ s with pendingRequests := mapDelete s.pendingRequests id },
           ⟨200, true⟩, [ev])

/-! ## Operation façade pieces needed by the claims
(`src/types.ts`, lines 326–332 and 367–378) -/

/-- The truthiness test `if (this.address)` in `getActiveAddress`: the
cache hits only when the stored address is non-null and non-empty. -/
def cachedAddress (s : WalletState) : Option String :=
  match s.address with
  | some a => if a = "" then none else some a
  | none => none

/-- `getActiveAddress` (lines 326–332), call step: a truthy cached
address is returned immediately (second component) with no state
change; otherwise `makeWalletRequest('getActiveAddress', \x7b\x7d)` is
issued with the externally generated fresh id. -/
def getActiveAddressCall (s : WalletState) (freshId : String) :
    (WalletState × List Ev) × Option String :=
  match cachedAddress s with
  | some a => ((s, []), some a)
  | none => (makeWalletRequest s freshId "getActiveAddress" "\x7b\x7d", none)

/-- The assignment `this.address = await this.makeWalletRequest(...)`
performed when the round-trip resolves successfully with `value`.  (On
rejection the `await` throws and the assignment never runs.) -/
def getActiveAddressResolve (s : WalletState) (value : String) : WalletState :=
  { s with address := some value }

/-- An Arweave transaction object as manipulated by `sign`
(external `arweave-js` shape). -/
structure Tx where
  format : Nat
  id : String
  last_tx : String
  owner : String
  tags : List (String × String)
  target : String
  quantity : String
  data : String
  data_size : String
  data_root : String
  reward : String
  signature : String
deriving Repr, DecidableEq

/-- `arweave.transactions.fromRaw` (external `arweave-js`): rebuilds a
transaction object from its raw JSON fields; the raw form carries
exactly the transaction fields, so on this record it is the
identity. -/
def fromRaw (raw : Tx) : Tx := raw

/-- `Transaction.setSignature` (external `arweave-js`): overwrites
exactly the five fields passed to it, in place. -/
def setSignature (tx : Tx) (id owner reward : String)
    (tags : List (String × String)) (signature : String) : Tx :=
  { tx with id := id, owner := owner, reward := reward, tags := tags,
            signature := signature }

/-- `sign` (lines 367–378), response step: rebuild the signed
transaction from the browser's raw response `raw`, copy its
signature-bearing fields onto the caller's transaction object, and
return that same object. -/
def signApplyResponse (transaction : Tx) (raw : Tx) : Tx :=
  let signedTx := fromRaw raw
  setSignature transaction signedTx.id signedTx.owner signedTx.reward
    signedTx.tags signedTx.signature

/-! ## Lifecycle (`src/types.ts`, lines 280–309 and 490–520) -/

/-- The `EADDRINUSE` rejection message built in `initialize`
(lines 296–307). -/
def initErrorMsg (port : Nat) : String :=
  "Port " ++ toString port ++ " is already in use. " ++
  "Please either:\n" ++
  "  1. Close the application using port " ++ toString port ++ ", or\n" ++
  "  2. Use a different port: new NodeArweaveWallet(\x7b port: 0 \x7d) for automatic selection"

/-- Outcome of `initialize` (lines 280–309): the promise settlement,
and whether a listening server is left behind. -/
structure InitOutcome where
  result : Except String Unit
  listening : Bool
deriving Repr

/-- `initialize`, modelled as a function of whether the configured port is
already occupied by another listener: if the bind fails with
`EADDRINUSE`, the promise rejects with `initErrorMsg` and the created
server never starts listening; otherwise the listen callback fires and
the promise resolves. -/
def initializeWallet (port : Nat) (portOccupied : Bool) : InitOutcome :=
  if portOccupied then ⟨.error (initErrorMsg port), false⟩
  else ⟨.ok (), true⟩

/-- `close` (lines 490–520) is `async` and suspends in the middle on
`await … SHUTDOWN_DELAY`; it is therefore embedded as two phases with
an explicit suspension point between them.  `closeBegin` is everything
before the await (lines 491–503): the `!this.server` early return,
`markComplete` — which sends the completion frame — when not already
complete, and stopping the heartbeat checker.  The channel handle is
still set when this phase ends, so other event-loop entries that run
during the delay can still write to the channel. -/
def closeBegin (s : WalletState) (status : String) : WalletState × List Ev :=
  if s.server = false then (s, [])
  else
    let step1 := if s.complete = false then markComplete s status else (s, [])
    ({ step1.1 with heartbeatInterval := false }, step1.2)

/-- `close`, second phase (lines 505–519), after the 500 ms delay: the
channel is ended and cleared, and the server closed and cleared.  (Both
actions are individually guarded by a null check in the source, so
running them when the handles are already clear changes nothing —
clearing an already-clear handle is the identity here.) -/
def closeFinish (s : WalletState) : WalletState :=
  { s with sseClient := none, server := false }

/-- `close` run without interleaving: both phases back to back.  The
no-op guard and the final state do not depend on what runs during the
delay. -/
def closeWallet (s : WalletState) (status : String) : WalletState × List Ev :=
  if s.server = false then (s, [])
  else (closeFinish (closeBegin s status).1, (closeBegin s status).2)

/-! ## Table lemmas -/

theorem mapGet_delete_self (m : List (String × Pending)) (id : String) :
    mapGet (mapDelete m id) id = none := by
  induction m with
  | nil => rfl
  | cons kv rest ih =>
      obtain ⟨k, v⟩ := kv
      by_cases hk : k = id
      · simp [mapDelete, hk, ih]
      · simp [mapDelete, mapGet, hk, ih]

theorem mapGet_delete_other {id id' : String} (m : List (String × Pending))
    (h : id' ≠ id) : mapGet (mapDelete m id) id' = mapGet m id' := by
  induction m with
  | nil => rfl
  | cons kv rest ih =>
      obtain ⟨k, v⟩ := kv
      by_cases hk : k = id
      · subst hk
        simp [mapDelete, mapGet, Ne.symm h, ih]
      · by_cases hk' : k = id'
        · simp [mapDelete, mapGet, hk, hk', h]
        · simp [mapDelete, mapGet, hk, hk', ih]

def listPrefixOf : List Char → List Char → Bool
  | [], _ => true
  | _ :: _, [] => false
  | a :: as, b :: bs => a = b && listPrefixOf as bs

def listContains (pat : List Char) : List Char → Bool
  | [] => listPrefixOf pat []
  | a :: rest => listPrefixOf pat (a :: rest) || listContains pat rest

/-- `strContains s pat` holds when `pat` occurs contiguously in `s`. -/
def strContains (s pat : String) : Bool :=
  listContains pat.data s.data

theorem listPrefixOf_self_append (p t : List Char) :
    listPrefixOf p (p ++ t) = true := by
  induction p with
  | nil => rfl
  | cons a as ih => simp [listPrefixOf, ih]

theorem listContains_of_prefixOf {p s : List Char}
    (h : listPrefixOf p s = true) : listContains p s = true := by
  cases s with
  | nil => exact h
  | cons a rest => simp [listContains, h]

theorem listContains_cons {p s : List Char} (x : Char)
    (h : listContains p s = true) : listContains p (x :: s) = true := by
  simp [listContains, h]

theorem listContains_append_left (xs : List Char) {p s : List Char}
    (h : listContains p s = true) : listContains p (xs ++ s) = true := by
  induction xs with
  | nil => exact h
  | cons a as ih => exact listContains_cons a ih

theorem listContains_middle (xs : List Char) (p ys : List Char) :
    listContains p (xs ++ (p ++ ys)) = true :=
  listContains_append_left xs
    (listContains_of_prefixOf (listPrefixOf_self_append p ys))

/-! ## Claims -/

/-- A session state with three pending requests and an attached channel
(handle 0), used as concrete input by several claims. -/
def attachedState : WalletState :=
  { pendingRequests :=
      [("a", ⟨"sign", "p1"⟩), ("b", ⟨"encrypt", "p2"⟩), ("c", ⟨"dispatch", "p3"⟩)]
    sseClient := some 0
    nextChan := 1
    browserConnected := true
    lastHeartbeat := 0
    complete := false
    address := none
    server := true
    heartbeatInterval := true }

/-- C1 counterexample.  With three requests pending and the channel
attached, the channel-close handler leaves the pending-request table
exactly as it was (in particular non-empty) and settles no future at
all — contradicting the claim that every pending request is rejected
and the table is empty immediately after the close. -/
theorem sseClose_pending_not_failed :
    (sseCloseHandler attachedState 0).1.pendingRequests
      = attachedState.pendingRequests ∧
    attachedState.pendingRequests ≠ [] ∧
    (sseCloseHandler attachedState 0).2 = [] := by
  refine ⟨rfl, by decide, rfl⟩

/-- C1 (amended).  When the channel closes, the handler detaches the
channel state synchronously (handle cleared, `browserConnected` set to
false) but changes nothing else: no pending future is rejected and the
table is untouched.  Moreover the heartbeat checker can never bulk-fail
those requests afterwards, because its guard requires
`browserConnected` — each pending request is rejected only later, by
its own timeout. -/
theorem sseClose_detaches_without_failing (s : WalletState) (chan : Nat)
    (h : s.sseClient = some chan) :
    sseCloseHandler s chan
      = ({ s with sseClient := none, browserConnected := false }, []) ∧
    (∀ now, heartbeatTick { s with sseClient := none, browserConnected := false } now
      = ({ s with sseClient := none, browserConnected := false }, [])) := by
  constructor
  · simp [sseCloseHandler, h]
  · intro now
    simp [heartbeatTick]

/-- Witness for C1's amended theorem at `attachedState`. -/
theorem sseClose_detaches_without_failing_witness :
    sseCloseHandler attachedState 0
      = ({ attachedState with sseClient := none, browserConnected := false }, []) :=
  (sseClose_detaches_without_failing attachedState 0 rfl).1

/-- C2 counterexample.  The body `null` is valid JSON, yet the property
read `response.id` throws a `TypeError` which the catch branch turns
into a 400 reply — contradicting the claim that every valid-JSON body
gets `200 \x7b success: true \x7d`. -/
theorem submit_result_null_body_400 :
    (handleResponse attachedState Json.null).2.1 = ⟨400, false⟩ := rfl

/-- C2 (amended).  For every submit-result body that is valid JSON
parsing to anything other than the literal `null`, the reply is
`200 \x7b success: true \x7d` regardless of whether the id is live, and a
second submission of the same body after the first is a complete no-op:
same state, reply 200, and no settlement event, so the value with which
the first submission settled the future is untouched. -/
theorem submit_result_200_and_idempotent (s : WalletState) (body : Json)
    (h : body ≠ Json.null) :
    (handleResponse s body).2.1 = ⟨200, true⟩ ∧
    handleResponse (handleResponse s body).1 body
      = ((handleResponse s body).1, ⟨200, true⟩, []) := by
  have hr : ∃ r, responseId body = .ok r := by
    cases body with
    | null => exact absurd rfl h
    | bool b => exact ⟨none, rfl⟩
    | num n => exact ⟨none, rfl⟩
    | str s => exact ⟨none, rfl⟩
    | arr l => exact ⟨none, rfl⟩
    | obj f => exact ⟨_, rfl⟩
  obtain ⟨r, hrr⟩ := hr
  cases r with
  | none => exact ⟨by simp [handleResponse, hrr], by simp [handleResponse, hrr]⟩
  | some id =>
      cases hm : mapGet s.pendingRequests id with
      | none => exact ⟨by simp [handleResponse, hrr, hm], by simp [handleResponse, hrr, hm]⟩
      | some p =>
          constructor
          · simp [handleResponse, hrr, hm]
          · simp [handleResponse, hrr, hm, mapGet_delete_self]

/-- Witness for C2's amended theorem: a duplicate submission for the
already-resolved id `"a"` replies 200 and settles nothing. -/
theorem submit_result_200_and_idempotent_witness :
    (handleResponse attachedState
        (Json.obj [("id", Json.str "a"), ("result", Json.str "ok")])).2.1
      = ⟨200, true⟩ ∧
    handleResponse
        (handleResponse attachedState
          (Json.obj [("id", Json.str "a"), ("result", Json.str "ok")])).1
        (Json.obj [("id", Json.str "a"), ("result", Json.str "ok")])
      = ((handleResponse attachedState
            (Json.obj [("id", Json.str "a"), ("result", Json.str "ok")])).1,
         ⟨200, true⟩, []) :=
  submit_result_200_and_idempotent attachedState
    (Json.obj [("id", Json.str "a"), ("result", Json.str "ok")])
    (fun hh => Json.noConfusion hh)

/-- C3 counterexample.  The rejection produced when a pending `sign`
request times out carries the message `Timeout waiting for sign`: it
does not contain the elapsed duration (neither the decimal form of the
120000 ms timeout nor any digit at all) — contradicting the claim that
the error carries the elapsed duration. -/
theorem timeout_error_lacks_duration :
    (requestTimeoutFire
        { initWalletState with pendingRequests := [("id1", ⟨"sign", "p"⟩)] }
        "id1").2
      = [Ev.rejectErr "id1" "Timeout waiting for sign"] ∧
    strContains "Timeout waiting for sign" (toString REQUEST_TIMEOUT) = false ∧
    ("Timeout waiting for sign").data.all (fun c => !c.isDigit) = true := by
  refine ⟨rfl, by decide, by decide⟩

/-- C3 (amended).  When a pending request's timeout fires, exactly that
entry is removed and its future is rejected with a
`Timeout waiting for <kind>` error (which does not include the elapsed
duration); every other pending entry is untouched and can still resolve
successfully afterwards through `handleResponse`. -/
theorem timeout_isolated_removal (s : WalletState) (id : String) (p : Pending)
    (h : mapGet s.pendingRequests id = some p) :
    (requestTimeoutFire s id).1
      = { s with pendingRequests := mapDelete s.pendingRequests id } ∧
    (requestTimeoutFire s id).2
      = [Ev.rejectErr id ("Timeout waiting for " ++ p.kind)] ∧
    (∀ id', id' ≠ id →
      mapGet (requestTimeoutFire s id).1.pendingRequests id'
        = mapGet s.pendingRequests id') ∧
    (∀ id' p' v, id' ≠ id → mapGet s.pendingRequests id' = some p' →
      handleResponse (requestTimeoutFire s id).1
          (Json.obj [("id", Json.str id'), ("result", v)])
        = ({ s with pendingRequests :=
               mapDelete (mapDelete s.pendingRequests id) id' },
           ⟨200, true⟩, [Ev.resolveEv id' v])) := by
  refine ⟨by simp [requestTimeoutFire, h], by simp [requestTimeoutFire, h], ?_, ?_⟩
  · intro id' hne
    simp [requestTimeoutFire, h, mapGet_delete_other _ hne]
  · intro id' p' v hne hm
    have h1 : mapGet (mapDelete s.pendingRequests id) id' = some p' := by
      rw [mapGet_delete_other _ hne]
      exact hm
    simp [requestTimeoutFire, h, handleResponse, responseId, lookupField,
      getField, h1]

/-- Witness for C3's amended theorem: the `"a"`/`sign` entry of
`attachedState` times out; the `"b"` entry is untouched and still
resolves. -/
theorem timeout_isolated_removal_witness :
    (requestTimeoutFire attachedState "a").2
      = [Ev.rejectErr "a" ("Timeout waiting for " ++ "sign")] ∧
    mapGet (requestTimeoutFire attachedState "a").1.pendingRequests "b"
      = mapGet attachedState.pendingRequests "b" :=
  ⟨(timeout_isolated_removal attachedState "a" ⟨"sign", "p1"⟩ rfl).2.1,
   (timeout_isolated_removal attachedState "a" ⟨"sign", "p1"⟩ rfl).2.2.1 "b"
     (by decide)⟩

/-- C5.  After a successful `sign(transaction)` the returned object
carries the caller's transaction fields unchanged except for the five
signature-bearing fields, which are copied from the browser response
(`fromRaw` of the raw reply). -/
theorem sign_overwrites_only_signature_fields (transaction raw : Tx) :
    ((signApplyResponse transaction raw).format = transaction.format ∧
     (signApplyResponse transaction raw).last_tx = transaction.last_tx ∧
     (signApplyResponse transaction raw).target = transaction.target ∧
     (signApplyResponse transaction raw).quantity = transaction.quantity ∧
     (signApplyResponse transaction raw).data = transaction.data ∧
     (signApplyResponse transaction raw).data_size = transaction.data_size ∧
     (signApplyResponse transaction raw).data_root = transaction.data_root) ∧
    ((signApplyResponse transaction raw).id = (fromRaw raw).id ∧
     (signApplyResponse transaction raw).owner = (fromRaw raw).owner ∧
     (signApplyResponse transaction raw).reward = (fromRaw raw).reward ∧
     (signApplyResponse transaction raw).tags = (fromRaw raw).tags ∧
     (signApplyResponse transaction raw).signature = (fromRaw raw).signature) :=
  ⟨⟨rfl, rfl, rfl, rfl, rfl, rfl, rfl⟩, ⟨rfl, rfl, rfl, rfl, rfl⟩⟩

/-- C6 counterexample.  After a call resolved with the address `""`,
the next call does not return it immediately: the `if (this.address)`
truthiness test fails on the empty string, so a new pending-request
table entry is created and a full round-trip begins — contradicting the
claim for every resolved address. -/
theorem getActiveAddress_empty_address_not_cached :
    (getActiveAddressCall (getActiveAddressResolve initWalletState "") "id2").2
      = none ∧
    ((getActiveAddressCall (getActiveAddressResolve initWalletState "") "id2").1.1).pendingRequests
      = [("id2", ⟨"getActiveAddress", "\x7b\x7d"⟩)] := by
  exact ⟨rfl, rfl⟩

/-- C6 (amended).  After any call has resolved with a nonempty address
`a`, every later `getActiveAddress` call returns `a` immediately — no
state change, no new table entry, no channel interaction — and this
holds for any channel state.  Before a successful resolution exists
(cached address absent), each call performs the full round-trip,
enqueuing a `getActiveAddress` request. -/
theorem getActiveAddress_memoization (s : WalletState) (a freshId : String)
    (ha : a ≠ "") (hs : s.address = some a) :
    getActiveAddressCall s freshId = ((s, []), some a) ∧
    (∀ s' freshId', s'.address = none →
      getActiveAddressCall s' freshId'
        = (makeWalletRequest s' freshId' "getActiveAddress" "\x7b\x7d", none)) := by
  constructor
  · simp [getActiveAddressCall, cachedAddress, hs, ha]
  · intro s' f h'
    simp [getActiveAddressCall, cachedAddress, h']

/-- Witness for C6's amended theorem with the address `"abc123"`. -/
theorem getActiveAddress_memoization_witness :
    getActiveAddressCall (getActiveAddressResolve initWalletState "abc123") "id9"
      = ((getActiveAddressResolve initWalletState "abc123", []), some "abc123") :=
  (getActiveAddress_memoization (getActiveAddressResolve initWalletState "abc123")
    "abc123" "id9" (by decide) rfl).1

/-- C9.  When the configured port is already occupied by another
listener (the variant has no automatic port-freeing), `initialize`
rejects with the `EADDRINUSE` message — which mentions the occupied
port number and contains remediation guidance — and leaves no
half-started server listening. -/
theorem initialize_port_conflict_rejects (port : Nat) :
    (initializeWallet port true).result = .error (initErrorMsg port) ∧
    strContains (initErrorMsg port) (toString port) = true ∧
    strContains (initErrorMsg port) "Use a different port" = true ∧
    (initializeWallet port true).listening = false := by
  refine ⟨rfl, ?_, ?_, rfl⟩
  · show listContains (toString port).data (initErrorMsg port).data = true
    simp only [initErrorMsg, String.data_append, List.append_assoc]
    exact listContains_middle _ _ _
  · show listContains ("Use a different port").data (initErrorMsg port).data = true
    simp only [initErrorMsg, String.data_append, List.append_assoc]
    exact listContains_append_left _ (listContains_append_left _
      (listContains_append_left _ (listContains_append_left _
        (listContains_append_left _ (listContains_append_left _ (by decide))))))

/-- C10.  `close()` with no server (never started, or already closed —
the first close always clears the server handle, as the second conjunct
shows) returns unchanged: no completion marking, no message to the
browser, no state modification at all. -/
theorem close_noop_when_no_server :
    (∀ s status, s.server = false → closeWallet s status = (s, [])) ∧
    (∀ s status, ((closeWallet s status).1).server = false) := by
  constructor
  · intro s status h
    simp [closeWallet, h]
  · intro s status
    by_cases h : s.server = false
    · simp [closeWallet, h]
    · simp [closeWallet, closeFinish, h]

/-- Witness for C10 on a never-started session. -/
theorem close_noop_when_no_server_witness :
    closeWallet { initWalletState with server := false } "failed"
      = ({ initWalletState with server := false }, []) :=
  close_noop_when_no_server.1 { initWalletState with server := false } "failed" rfl

/-! ## Traces of the event loop (claim C7)

The external entry points of the relay, run one at a time by the
single-threaded event loop.  `run` executes a trace and concatenates
the observable events of each entry. -/

inductive Op where
  | attach : Nat → Op
  | chanClose : Nat → Op
  | enqueue : String → String → String → Op
  | mark : String → Op
  | heartbeat : Nat → Op
  | respond : Json → Op
  | timeoutFire : String → Op
  | closeBegin : String → Op
  | closeFinish : Op

/-- One event-loop entry: a channel attach (`handleSSE`), a channel
close, a façade enqueue (`makeWalletRequest` with its externally
generated id), `markComplete`, a heartbeat-checker firing, a
`POST /response`, a per-request timeout firing, or one of the two
phases of the `async` `close` — the `SHUTDOWN_DELAY` suspension inside
`close` means arbitrary entries can run between its phases. -/
def step (s : WalletState) : Op → WalletState × List Ev
  | .attach now => handleSSE s now
  | .chanClose chan => sseCloseHandler s chan
  | .enqueue id kind params => makeWalletRequest s id kind params
  | .mark status => markComplete s status
  | .heartbeat now => heartbeatTick s now
  | .respond body =>
      let r := handleResponse s body
      (r.1, r.2.2)
  | .timeoutFire id => requestTimeoutFire s id
  | .closeBegin status => closeBegin s status
  | .closeFinish => (closeFinish s, [])

/-- Run a trace from a state. -/
def run (s : WalletState) : List Op → WalletState × List Ev
  | [] => (s, [])
  | op :: rest =>
      let r := step s op
      let r' := run r.1 rest
      (r'.1, r.2 ++ r'.2)

theorem run_cons (s : WalletState) (op : Op) (rest : List Op) :
    (run s (op :: rest)).2 = (step s op).2 ++ (run (step s op).1 rest).2 := rfl

theorem run_cons_state (s : WalletState) (op : Op) (rest : List Op) :
    (run s (op :: rest)).1 = (run (step s op).1 rest).1 := rfl

/-- Scan the event list, collecting the channels on which a completion
frame has appeared; `none` marks a violation: a request frame written
on a channel at or after that channel's completion frame. -/
def seenAfter (seen : List Nat) : List Ev → Option (List Nat)
  | [] => some seen
  | e :: rest =>
      match e with
      | .write c (.request _ _ _) =>
          if c ∈ seen then none else seenAfter seen rest
      | .write c (.completed _) => seenAfter (c :: seen) rest
      | _ => seenAfter seen rest

/-- The claim C7 ordering property of an event list: on each channel
instance, every request frame precedes any completion frame. -/
def completionLast (evs : List Ev) : Bool :=
  (seenAfter [] evs).isSome

theorem seenAfter_append (seen : List Nat) (xs ys : List Ev) :
    seenAfter seen (xs ++ ys)
      = (seenAfter seen xs).bind (fun s' => seenAfter s' ys) := by
  induction xs generalizing seen with
  | nil => rfl
  | cons e rest ih =>
      cases e with
      | write c m =>
          cases m with
          | connected => simpa [seenAfter] using ih seen
          | request id kind params =>
              by_cases hc : c ∈ seen
              · simp [seenAfter, hc]
              · simp [seenAfter, hc, ih seen]
          | completed status => simpa [seenAfter] using ih (c :: seen)
      | resolveEv id v => simpa [seenAfter] using ih seen
      | rejectResp id v => simpa [seenAfter] using ih seen
      | rejectErr id msg => simpa [seenAfter] using ih seen

theorem seenAfter_rejects (seen : List Nat) (l : List (String × Pending))
    (msg : String) :
    seenAfter seen (l.map (fun kv => Ev.rejectErr kv.1 msg)) = some seen := by
  induction l with
  | nil => rfl
  | cons kv rest ih => simp [seenAfter, ih]

/-- The events of `handleResponse` are settlements only (no channel
writes), and the handler leaves the channel bookkeeping unchanged. -/
theorem handleResponse_settlements_only (s : WalletState) (body : Json)
    (seen : List Nat) :
    seenAfter seen (handleResponse s body).2.2 = some seen ∧
    (handleResponse s body).1.sseClient = s.sseClient ∧
    (handleResponse s body).1.nextChan = s.nextChan := by
  unfold handleResponse
  split
  · exact ⟨rfl, rfl, rfl⟩
  · exact ⟨rfl, rfl, rfl⟩
  · split
    · exact ⟨rfl, rfl, rfl⟩
    · refine ⟨?_, rfl, rfl⟩
      split
      · split
        · rfl
        · rfl
      · rfl

/-- `true` when the trace contains no façade enqueue. -/
def noEnq (ops : List Op) : Bool :=
  ops.all (fun op => match op with | .enqueue _ _ _ => false | _ => true)

theorem noEnq_cons {op : Op} {rest : List Op}
    (h : noEnq (op :: rest) = true) : noEnq rest = true := by
  simp [noEnq, List.all_cons] at h ⊢
  exact h.2

/-- No façade enqueue occurs after the session is marked complete:
neither after a `markComplete` call nor after a `close()` has begun
(close marks the session complete and sends the completion frame in its
first phase, before the `SHUTDOWN_DELAY` suspension). -/
def marksBeforeEnqueues : List Op → Bool
  | [] => true
  | .mark _ :: rest => noEnq rest && marksBeforeEnqueues rest
  | .closeBegin _ :: rest => noEnq rest && marksBeforeEnqueues rest
  | _ :: rest => marksBeforeEnqueues rest

/-- C7 counterexample.  Nothing in the code stops a wallet request from
being enqueued after the completion frame: from the initial state the
trace attach / mark-complete / enqueue writes the request frame after
the completion frame on the same channel instance, and the same happens
during `close()`'s `SHUTDOWN_DELAY` window — after `closeBegin` has
sent the completion frame the channel handle is still set, so an
enqueue in that window also pushes after the completion frame —
contradicting the claim for every execution. -/
theorem push_after_completion_possible :
    (run initWalletState
        [Op.attach 0, Op.mark "success", Op.enqueue "a" "sign" "p"]).2
      = [Ev.write 0 Msg.connected, Ev.write 0 (Msg.completed "success"),
         Ev.write 0 (Msg.request "a" "sign" "p")] ∧
    completionLast
        (run initWalletState
          [Op.attach 0, Op.mark "success", Op.enqueue "a" "sign" "p"]).2
      = false ∧
    (run initWalletState
        [Op.attach 0, Op.closeBegin "success", Op.enqueue "a" "sign" "p",
         Op.closeFinish]).2
      = [Ev.write 0 Msg.connected, Ev.write 0 (Msg.completed "success"),
         Ev.write 0 (Msg.request "a" "sign" "p")] ∧
    completionLast
        (run initWalletState
          [Op.attach 0, Op.closeBegin "success", Op.enqueue "a" "sign" "p",
           Op.closeFinish]).2
      = false := by
  exact ⟨rfl, rfl, rfl, rfl⟩

/-- The central invariant argument: along any trace in which no enqueue
follows a `markComplete`, the scan never finds a request frame on a
channel that already carried a completion frame.  `seen` is bounded by
the next fresh channel handle, the current client handle is in bounds,
and once the current client is in `seen` the remaining trace holds no
enqueue. -/
theorem run_completion_last (ops : List Op) :
    ∀ (s : WalletState) (seen : List Nat),
      marksBeforeEnqueues ops = true →
      (∀ c ∈ seen, c < s.nextChan) →
      (∀ c, s.sseClient = some c → c < s.nextChan) →
      (∀ c, s.sseClient = some c → c ∈ seen → noEnq ops = true) →
      (seenAfter seen (run s ops).2).isSome = true := by
  induction ops with
  | nil =>
      intro s seen _ _ _ _
      simp [run, seenAfter]
  | cons op rest ih =>
      intro s seen hmbe hseen hclient hfrozen
      cases op with
      | attach now =>
          have hmbe' : marksBeforeEnqueues rest = true := hmbe
          rw [run_cons]
          rw [seenAfter_append]
          have hfresh : s.nextChan ∉ seen := fun hmem =>
            absurd (hseen _ hmem) (lt_irrefl _)
          cases hp : s.pendingRequests with
          | nil =>
              have hstep : step s (Op.attach now)
                  = ({ s with
                        lastHeartbeat := now
                        browserConnected := true
                        sseClient := some s.nextChan
                        nextChan := s.nextChan + 1 },
                     [Ev.write s.nextChan Msg.connected]) := by
                simp [step, handleSSE, hp]
              rw [hstep]
              simp only [seenAfter, Option.bind_some]
              exact ih _ seen hmbe'
                (fun c hc => Nat.lt_succ_of_lt (hseen c hc))
                (fun c hc => by
                  simp at hc ⊢
                  omega)
                (fun c hc hcin => by
                  simp at hc
                  subst hc
                  exact absurd hcin hfresh)
          | cons kv tl =>
              have hstep : step s (Op.attach now)
                  = ({ s with
                        lastHeartbeat := now
                        browserConnected := true
                        sseClient := some s.nextChan
                        nextChan := s.nextChan + 1 },
                     [Ev.write s.nextChan Msg.connected,
                      Ev.write s.nextChan (Msg.request kv.1 kv.2.kind kv.2.params)]) := by
                simp [step, handleSSE, hp]
              rw [hstep]
              simp only [seenAfter, if_neg hfresh, Option.bind_some]
              exact ih _ seen hmbe'
                (fun c hc => Nat.lt_succ_of_lt (hseen c hc))
                (fun c hc => by
                  simp at hc ⊢
                  omega)
                (fun c hc hcin => by
                  simp at hc
                  subst hc
                  exact absurd hcin hfresh)
      | chanClose chan =>
          have hmbe' : marksBeforeEnqueues rest = true := hmbe
          rw [run_cons, seenAfter_append]
          by_cases hcl : s.sseClient = some chan
          · have hstep : step s (Op.chanClose chan)
                = ({ s with sseClient := none, browserConnected := false }, []) := by
              simp [step, sseCloseHandler, hcl]
            rw [hstep]
            simp only [seenAfter, Option.bind_some]
            exact ih _ seen hmbe' hseen
              (fun c hc => by simp at hc)
              (fun c hc => by simp at hc)
          · have hstep : step s (Op.chanClose chan) = (s, []) := by
              simp [step, sseCloseHandler, hcl]
            rw [hstep]
            simp only [seenAfter, Option.bind_some]
            exact ih _ seen hmbe' hseen hclient
              (fun c hc hcin => noEnq_cons (hfrozen c hc hcin))
      | enqueue id kind params =>
          have hmbe' : marksBeforeEnqueues rest = true := hmbe
          rw [run_cons, seenAfter_append]
          cases hcl : s.sseClient with
          | none =>
              have hstep : step s (Op.enqueue id kind params)
                  = ({ s with
                        pendingRequests := mapSet s.pendingRequests id ⟨kind, params⟩ },
                     []) := by
                simp [step, makeWalletRequest, sendSSERequest, hcl]
              rw [hstep]
              simp only [seenAfter, Option.bind_some]
              exact ih _ seen hmbe' hseen
                (fun c hc => hclient c (by simpa using hc))
                (fun c hc => by
                  simp [hcl] at hc)
          | some ch =>
              have hnotin : ch ∉ seen := fun hcin => by
                have := hfrozen ch hcl hcin
                simp [noEnq, List.all_cons] at this
              have hstep : step s (Op.enqueue id kind params)
                  = ({ s with
                        pendingRequests := mapSet s.pendingRequests id ⟨kind, params⟩ },
                     [Ev.write ch (Msg.request id kind params)]) := by
                simp [step, makeWalletRequest, sendSSERequest, hcl]
              rw [hstep]
              simp only [seenAfter, if_neg hnotin, Option.bind_some]
              exact ih _ seen hmbe'
                hseen
                (fun c hc => hclient c (by simpa using hc))
                (fun c hc hcin => by
                  simp [hcl] at hc
                  subst hc
                  exact absurd hcin hnotin)
      | mark status =>
          have hmbe2 : noEnq rest = true ∧ marksBeforeEnqueues rest = true := by
            simpa [marksBeforeEnqueues, Bool.and_eq_true] using hmbe
          rw [run_cons, seenAfter_append]
          cases hcl : s.sseClient with
          | none =>
              have hstep : step s (Op.mark status)
                  = ({ s with complete := true }, []) := by
                simp [step, markComplete, sendSSEComplete, hcl]
              rw [hstep]
              simp only [seenAfter, Option.bind_some]
              exact ih _ seen hmbe2.2 hseen
                (fun c hc => hclient c (by simpa using hc))
                (fun c hc => by simp [hcl] at hc)
          | some ch =>
              have hstep : step s (Op.mark status)
                  = ({ s with complete := true },
                     [Ev.write ch (Msg.completed status)]) := by
                simp [step, markComplete, sendSSEComplete, hcl]
              rw [hstep]
              simp only [seenAfter, Option.bind_some]
              exact ih _ (ch :: seen) hmbe2.2
                (fun c hc => by
                  rcases List.mem_cons.mp hc with h1 | h1
                  · rw [h1]
                    simpa using hclient ch hcl
                  · simpa using hseen c h1)
                (fun c hc => hclient c (by simpa using hc))
                (fun c _ _ => hmbe2.1)
      | heartbeat now =>
          have hmbe' : marksBeforeEnqueues rest = true := hmbe
          rw [run_cons, seenAfter_append]
          by_cases hb : (s.browserConnected && decide (0 < s.pendingRequests.length)
              && decide (HEARTBEAT_TIMEOUT < now - s.lastHeartbeat)) = true
          · have hstep : step s (Op.heartbeat now)
                = ({ s with
                      browserConnected := false
                      pendingRequests := [] },
                   s.pendingRequests.map (fun kv => Ev.rejectErr kv.1 heartbeatTimeoutMsg)) := by
              simp [step, heartbeatTick, hb]
            rw [hstep, seenAfter_rejects]
            simp only [Option.bind_some]
            exact ih _ seen hmbe'
              hseen
              (fun c hc => hclient c (by simpa using hc))
              (fun c hc hcin => noEnq_cons
                (hfrozen c (by simpa using hc) hcin))
          · have hstep : step s (Op.heartbeat now) = (s, []) := by
              simp only [step, heartbeatTick]
              rw [if_neg hb]
            rw [hstep]
            simp only [seenAfter, Option.bind_some]
            exact ih _ seen hmbe' hseen hclient
              (fun c hc hcin => noEnq_cons (hfrozen c hc hcin))
      | respond body =>
          have hmbe' : marksBeforeEnqueues rest = true := hmbe
          rw [run_cons, seenAfter_append]
          obtain ⟨hset, hcl, hnc⟩ := handleResponse_settlements_only s body seen
          have hstep2 : (step s (Op.respond body)).2 = (handleResponse s body).2.2 := rfl
          have hstep1 : (step s (Op.respond body)).1 = (handleResponse s body).1 := rfl
          rw [hstep2, hset]
          simp only [Option.some_bind]
          rw [hstep1]
          exact ih _ seen hmbe'
            (fun c hc => hnc ▸ hseen c hc)
            (fun c hc => by
              rw [hnc]
              exact hclient c (hcl ▸ hc))
            (fun c hc hcin => noEnq_cons (hfrozen c (hcl ▸ hc) hcin))
      | timeoutFire id =>
          have hmbe' : marksBeforeEnqueues rest = true := hmbe
          rw [run_cons, seenAfter_append]
          cases hm : mapGet s.pendingRequests id with
          | none =>
              have hstep : step s (Op.timeoutFire id) = (s, []) := by
                simp [step, requestTimeoutFire, hm]
              rw [hstep]
              simp only [seenAfter, Option.bind_some]
              exact ih _ seen hmbe' hseen hclient
                (fun c hc hcin => noEnq_cons (hfrozen c hc hcin))
          | some p =>
              have hstep : step s (Op.timeoutFire id)
                  = ({ s with pendingRequests := mapDelete s.pendingRequests id },
                     [Ev.rejectErr id ("Timeout waiting for " ++ p.kind)]) := by
                simp [step, requestTimeoutFire, hm]
              rw [hstep]
              simp only [seenAfter, Option.bind_some]
              exact ih _ seen hmbe'
                hseen
                (fun c hc => hclient c (by simpa using hc))
                (fun c hc hcin => noEnq_cons
                  (hfrozen c (by simpa using hc) hcin))
      | closeBegin status =>
          have hmbe2 : noEnq rest = true ∧ marksBeforeEnqueues rest = true := by
            simpa [marksBeforeEnqueues, Bool.and_eq_true] using hmbe
          rw [run_cons, seenAfter_append]
          by_cases hsrv : s.server = false
          · have hstep : step s (Op.closeBegin status) = (s, []) := by
              simp [step, closeBegin, hsrv]
            rw [hstep]
            simp only [seenAfter, Option.bind_some]
            exact ih _ seen hmbe2.2 hseen hclient
              (fun c _ _ => hmbe2.1)
          · by_cases hcomp : s.complete = false
            · cases hcl : s.sseClient with
              | none =>
                  have hstep : step s (Op.closeBegin status)
                      = ({ s with
                            complete := true
                            heartbeatInterval := false }, []) := by
                    simp [step, closeBegin, hsrv, hcomp, markComplete,
                      sendSSEComplete, hcl]
                  rw [hstep]
                  simp only [seenAfter, Option.bind_some]
                  exact ih _ seen hmbe2.2
                    (fun c hc => by simpa using hseen c hc)
                    (fun c hc => hclient c (by simpa using hc))
                    (fun c _ _ => hmbe2.1)
              | some ch =>
                  have hstep : step s (Op.closeBegin status)
                      = ({ s with
                            complete := true
                            heartbeatInterval := false },
                         [Ev.write ch (Msg.completed status)]) := by
                    simp [step, closeBegin, hsrv, hcomp, markComplete,
                      sendSSEComplete, hcl]
                  rw [hstep]
                  simp only [seenAfter, Option.bind_some]
                  exact ih _ (ch :: seen) hmbe2.2
                    (fun c hc => by
                      rcases List.mem_cons.mp hc with h1 | h1
                      · rw [h1]
                        simpa using hclient ch hcl
                      · simpa using hseen c h1)
                    (fun c hc => hclient c (by simpa using hc))
                    (fun c _ _ => hmbe2.1)
            · have hstep : step s (Op.closeBegin status)
                  = ({ s with heartbeatInterval := false }, []) := by
                simp [step, closeBegin, hsrv, hcomp]
              rw [hstep]
              simp only [seenAfter, Option.bind_some]
              exact ih _ seen hmbe2.2
                (fun c hc => by simpa using hseen c hc)
                (fun c hc => hclient c (by simpa using hc))
                (fun c _ _ => hmbe2.1)
      | closeFinish =>
          have hmbe' : marksBeforeEnqueues rest = true := hmbe
          rw [run_cons, seenAfter_append]
          have hstep : step s Op.closeFinish = (closeFinish s, []) := rfl
          rw [hstep]
          simp only [seenAfter, Option.bind_some]
          exact ih _ seen hmbe'
            (fun c hc => by simpa [closeFinish] using hseen c hc)
            (fun c hc => by simp [closeFinish] at hc)
            (fun c hc => by simp [closeFinish] at hc)

/-- C7 (amended).  In every trace in which no wallet request is
enqueued after the session is marked complete — neither after a
`markComplete` call nor after a `close()` has begun (close sends the
completion frame in its first phase and only tears the channel down
after the `SHUTDOWN_DELAY` suspension) — the completion message is the
last message on every channel instance: every request frame on a
channel precedes any completion frame on that channel.  (The
counterexample shows the code itself does not enforce this, both after
`markComplete` and inside close()'s delay window; it holds exactly for
such traces.) -/
theorem completion_last_without_late_enqueues (ops : List Op)
    (h : marksBeforeEnqueues ops = true) :
    completionLast (run initWalletState ops).2 = true := by
  unfold completionLast
  exact run_completion_last ops initWalletState [] h
    (by intro c hc; simp at hc)
    (by intro c hc; simp [initWalletState] at hc)
    (by intro c hc; simp [initWalletState] at hc)

/-- Witness for C7's amended theorem: attach, enqueue, then mark
complete yields the completion frame last. -/
theorem completion_last_without_late_enqueues_witness :
    marksBeforeEnqueues
        [Op.attach 0, Op.enqueue "a" "sign" "p", Op.mark "success"] = true ∧
    completionLast
        (run initWalletState
          [Op.attach 0, Op.enqueue "a" "sign" "p", Op.mark "success"]).2 = true :=
  ⟨rfl, completion_last_without_late_enqueues _ rfl⟩

end NodeArweaveWallet
